import Mathlib

/-!
Verification of the tabular-file ingestion pipeline of the flipkartgrn
repository (src/app.py and src/flipkartninjutsu_auto.py), as a shallow
embedding in Lean 4.  Cell values are strings; tables are a header row plus
data rows; the Google Sheets store is a list of string rows; exceptions are
modelled with Except and the catching wrappers that the source installs.
-/

namespace FlipkartGRN

/-- The apostrophe character, written via its code point. -/
def apostrophe : Char := Char.ofNat 39

/-- Embeds the replace of every apostrophe by the empty string that both
clean_cell_value and clean_dataframe perform. -/
def removeApostrophes (s : String) : String :=
  String.mk (s.data.filter (fun c => c ≠ apostrophe))

/-- The ASCII whitespace characters that str.strip removes: space, tab,
newline, carriage return, vertical tab, form feed. -/
def isStripChar (c : Char) : Bool :=
  c.toNat = 32 || c.toNat = 9 || c.toNat = 10 || c.toNat = 13 ||
    c.toNat = 11 || c.toNat = 12

/-- str.strip over the characters of a string: drop whitespace from both
ends. -/
def pyStrip (s : String) : String :=
  String.mk (((s.data.dropWhile isStripChar).reverse.dropWhile isStripChar).reverse)

/-- clean_cell_value (string branch): str(value).strip().replace removes
surrounding whitespace, then every apostrophe.  The decoder only ever passes
strings to it; the None and NaN branches return the empty string and the
numeric branch stringifies, neither of which the decoder path exercises. -/
def cleanCellValue (s : String) : String :=
  removeApostrophes (pyStrip s)

/-! ## Shared-string / raw container decoder (try_raw_xml_extraction) -/

/-- One match of the worksheet cell regex: the groups are the cell reference
(letters then digits), the optional type attribute, the optional v-element
payload and the optional inline-string payload; unmatched optional groups are
the empty string, exactly as re.findall returns them. -/
structure CellRecord where
  ref : String
  cellType : String
  vValue : String
  isValue : String
deriving DecidableEq

/-- A spreadsheet container as the decoder observes it: whether the byte
stream opens as a ZIP archive, the text runs the shared-strings regex yields
(empty when the part is absent or undecodable), and the cell records the cell
regex yields for each worksheet part, in path order. -/
structure RawContainer where
  validArchive : Bool
  sharedStringRuns : List String
  worksheets : List (List CellRecord)
deriving DecidableEq

/-- The letters of a cell reference. -/
def colLetters (ref : String) : List Char :=
  ref.data.filter Char.isAlpha

/-- The digits of a cell reference read as a number, mirroring int on the
digit characters. -/
def rowNum (ref : String) : Nat :=
  (ref.data.filter Char.isDigit).foldl (fun n c => n * 10 + (c.toNat - 48)) 0

/-- Base-26 column arithmetic over the letters of the reference. -/
def colNum (ref : String) : Nat :=
  (colLetters ref).foldl (fun n c => n * 26 + (c.toNat - 64)) 0

/-- The shared-string dictionary: index i (stringified) maps to the stripped
i-th text run. -/
def sharedMap (runs : List String) : List (String × String) :=
  runs.enum.map (fun p => (toString p.1, pyStrip p.2))

/-- Cell value resolution: the inline-string payload wins; else a type flag s
with a v payload is looked up among the shared strings, falling back to the
raw token; else the v payload stripped; else empty.  The auto script has an
extra branch for type flag str that strips the v payload, which the next
branch reproduces verbatim, so the two sources agree. -/
def resolveCellValue (shared : List (String × String)) (r : CellRecord) : String :=
  if r.isValue ≠ "" then pyStrip r.isValue
  else if r.cellType = "s" ∧ r.vValue ≠ "" then (shared.lookup r.vValue).getD r.vValue
  else if r.vValue ≠ "" then pyStrip r.vValue
  else ""

/-- The (row, column) to cleaned-value entries, in record order. -/
def cellEntries (shared : List (String × String)) (records : List CellRecord) :
    List ((Nat × Nat) × String) :=
  records.map (fun r => ((rowNum r.ref, colNum r.ref), cleanCellValue (resolveCellValue shared r)))

/-- Dictionary read with last-assignment-wins, as Python dict assignment in
the record loop behaves. -/
def cellGet (shared : List (String × String)) (records : List CellRecord)
    (k : Nat × Nat) : String :=
  (((cellEntries shared records).reverse).lookup k).getD ""

/-- Maximum observed 1-based row index. -/
def maxRowOf (records : List CellRecord) : Nat :=
  records.foldl (fun m r => max m (rowNum r.ref)) 0

/-- Maximum observed 1-based column index. -/
def maxColOf (records : List CellRecord) : Nat :=
  records.foldl (fun m r => max m (colNum r.ref)) 0

/-- The dense grid over 1..max_row times 1..max_col with empty strings for
absent cells. -/
def buildGrid (shared : List (String × String)) (records : List CellRecord) :
    List (List String) :=
  (List.range (maxRowOf records)).map (fun ri =>
    (List.range (maxColOf records)).map (fun ci =>
      cellGet shared records (ri + 1, ci + 1)))

/-- Python truthiness of a row: some cell is a nonempty string. -/
def rowNonBlank (row : List String) : Bool :=
  row.any (fun c => decide (c ≠ ""))

/-- The grid after dropping fully blank rows. -/
def filteredGrid (shared : List (String × String)) (records : List CellRecord) :
    List (List String) :=
  (buildGrid shared records).filter rowNonBlank

/-- A parsed table: a header row of column names and the data rows. -/
structure Table where
  header : List String
  rows : List (List String)
deriving DecidableEq

/-- The empty DataFrame sentinel. -/
def Table.empty : Table := ⟨[], []⟩

/-- Synthetic column names Column_1 .. Column_n. -/
def synthHeaders (n : Nat) : List String :=
  (List.range n).map (fun i => "Column_" ++ toString (i + 1))

/-- Header built from an observed row: blank cells fall back to the synthetic
name for their 1-based position. -/
def headerFromRow (row : List String) : List String :=
  row.enum.map (fun p => if p.2 = "" then "Column_" ++ toString (p.1 + 1) else p.2)

/-- The header-policy tail of the decoder: the row-count guard, then either
synthetic names over every row, or row N as header with the rows after it as
data, or the empty result when too few rows remain. -/
def applyHeaderPolicy (headerRow : Int) (data : List (List String)) : Table :=
  if (data.length : Int) < max 1 (headerRow + 2) then Table.empty
  else if headerRow = -1 then ⟨synthHeaders (data.headD []).length, data⟩
  else
    if data.length > headerRow.toNat then
      ⟨headerFromRow (data.getD headerRow.toNat []), data.drop (headerRow.toNat + 1)⟩
    else Table.empty

/-- try_raw_xml_extraction before its catch-all handler: a bad archive raises
(modelled as error); a missing worksheet part, an empty cell-record match
list or an empty cell dictionary each return the empty result; otherwise the
grid is built, blank rows are dropped and the header policy is applied. -/
def tryRawXmlExtractionE (c : RawContainer) (headerRow : Int) : Except String Table :=
  if c.validArchive = false then Except.error "BadZipFile"
  else
    match c.worksheets with
    | [] => Except.ok Table.empty
    | records :: _ =>
      if records = [] then Except.ok Table.empty
      else
        let shared := sharedMap c.sharedStringRuns
        if cellEntries shared records = [] then Except.ok Table.empty
        else Except.ok (applyHeaderPolicy headerRow (filteredGrid shared records))

/-- try_raw_xml_extraction with its catch-all handler: every raised exception
becomes the empty result. -/
def tryRawXmlExtraction (c : RawContainer) (headerRow : Int) : Table :=
  match tryRawXmlExtractionE c headerRow with
  | Except.ok t => t
  | Except.error _ => Table.empty

/-! ## Table post-processor (clean_dataframe) -/

/-- Step 1 of clean_dataframe: strip apostrophes from every cell of every
row.  In the all-string table model every column is an object column. -/
def stripApostrophesRows (rows : List (List String)) : List (List String) :=
  rows.map (fun r => r.map removeApostrophes)

/-- The mask of step 2: the second cell, stripped, is empty or the literal
textual representation of a missing value. -/
def secondColBlank (row : List String) : Bool :=
  pyStrip (row.getD 1 "") = "" ∨ pyStrip (row.getD 1 "") = "nan"

/-- Step 2 of clean_dataframe: with at least two columns, keep only rows
whose second cell passes the mask; with fewer, leave the rows alone. -/
def filterSecondCol (ncols : Nat) (rows : List (List String)) : List (List String) :=
  if 2 ≤ ncols then rows.filter (fun r => !(secondColBlank r)) else rows

/-- First-occurrence deduplication with an accumulator of keys already seen,
the semantics of drop_duplicates with keep set to first. -/
def dropDuplicatesBy {α β : Type} [DecidableEq β] (key : α → β) :
    List β → List α → List α
  | _, [] => []
  | seen, a :: as =>
    if key a ∈ seen then dropDuplicatesBy key (key a :: seen) as
    else a :: dropDuplicatesBy key (key a :: seen) as

/-- Step 3 of clean_dataframe: exact full-row deduplication. -/
def dropDuplicateRows (rows : List (List String)) : List (List String) :=
  dropDuplicatesBy (fun r => r) [] rows

/-- clean_dataframe: an empty frame is returned untouched; otherwise strip
apostrophes, drop rows with a blank second column when the frame has at
least two columns, then drop exact duplicate rows.  Column names are not
modified. -/
def cleanDataframe (t : Table) : Table :=
  if t.rows.isEmpty then t
  else
    ⟨t.header, dropDuplicateRows (filterSecondCol t.header.length (stripApostrophesRows t.rows))⟩

/-! ## Strategy cascade (read_excel_file) -/

/-- The environment one file presents to the cascade: the table each engine
would produce on this byte stream (the empty table standing for both an
engine failure and an engine returning no data), the legacy-extension hint
and the availability of the optional pyxlsb library. -/
structure ExcelEnv where
  openpyxlResult : Table
  xlrdResult : Table
  calamineResult : Table
  pyxlsbResult : Table
  xlwingsResult : Table
  rawXmlResult : Table
  libreofficeResult : Table
  ssconvertResult : Table
  isXlsFile : Bool
  pyxlsbAvailable : Bool
deriving DecidableEq

/-- The cascade order of read_excel_file; a strategy that is skipped (wrong
extension, missing library) contributes the empty table, matching the
fall-through of the source. -/
def strategyResults (e : ExcelEnv) : List Table :=
  [ e.openpyxlResult
  , if e.isXlsFile then e.xlrdResult else Table.empty
  , e.calamineResult
  , if e.pyxlsbAvailable then e.pyxlsbResult else Table.empty
  , e.xlwingsResult
  , e.rawXmlResult
  , e.libreofficeResult
  , e.ssconvertResult ]

/-- The cascade dispatcher instrumented with an invocation count: the result
table together with how many strategies were examined.  The first strategy
with a nonempty raw table short-circuits and its table is fed to the
post-processor. -/
def runCascadeInstr : List Table → Table × Nat
  | [] => (Table.empty, 0)
  | t :: ts =>
    if t.rows.isEmpty then
      ((runCascadeInstr ts).1, (runCascadeInstr ts).2 + 1)
    else (cleanDataframe t, 1)

/-- read_excel_file as the source writes it: a ladder of attempts, each
returning the cleaned table at the first nonempty raw result, and the empty
table once every strategy has failed. -/
def readExcelFile (e : ExcelEnv) : Table :=
  if (e.openpyxlResult).rows.isEmpty = false then cleanDataframe e.openpyxlResult
  else
    let d2 := if e.isXlsFile then e.xlrdResult else Table.empty
    if d2.rows.isEmpty = false then cleanDataframe d2
    else if (e.calamineResult).rows.isEmpty = false then cleanDataframe e.calamineResult
    else
      let d4 := if e.pyxlsbAvailable then e.pyxlsbResult else Table.empty
      if d4.rows.isEmpty = false then cleanDataframe d4
      else if (e.xlwingsResult).rows.isEmpty = false then cleanDataframe e.xlwingsResult
      else if (e.rawXmlResult).rows.isEmpty = false then cleanDataframe e.rawXmlResult
      else if (e.libreofficeResult).rows.isEmpty = false then cleanDataframe e.libreofficeResult
      else if (e.ssconvertResult).rows.isEmpty = false then cleanDataframe e.ssconvertResult
      else Table.empty

/-! ## Sheet append (_append_to_sheet) and run driver -/

/-- The record of one executed write: the table written, whether the header
row was prepended, the store length read just before the write, the 1-based
anchor row of the write, and the value rows transmitted. -/
structure WriteRec where
  table : Table
  appendHeaders : Bool
  lenBefore : Nat
  startRow : Nat
  written : List (List String)
deriving DecidableEq

/-- The append of one cleaned table: the values are the data rows, with the
column names prepended when headers were requested; an empty value list
writes nothing; otherwise the current store is read, the anchor is the row
after its last row, and the values are appended there. -/
def appendToSheet (store : List (List String)) (t : Table) (appendHeaders : Bool) :
    List (List String) × Option WriteRec :=
  let values := if appendHeaders then t.header :: t.rows else t.rows
  if values.isEmpty then (store, none)
  else
    let startRow := if store.isEmpty then 1 else store.length + 1
    (store ++ values, some ⟨t, appendHeaders, store.length, startRow, values⟩)

/-- The per-run driver loop: empty parse results are skipped; otherwise the
header row is requested only for the first successful file of a run against
a store that had no header, and after a successful append both flags flip.
Returns the trace of executed writes and the final store. -/
def processTables : List Table → Bool → Bool → List (List String) →
    List WriteRec × List (List String)
  | [], _, _, store => ([], store)
  | t :: ts, isFirst, hasHeaders, store =>
    if t.rows.isEmpty then processTables ts isFirst hasHeaders store
    else
      let res := appendToSheet store t (isFirst && !hasHeaders)
      let rest := processTables ts false true res.1
      (res.2.toList ++ rest.1, rest.2)

/-! ## Global dedup pass (remove_duplicates_from_sheet) -/

/-- The dedup key of a data row, read at the positions of the two key
columns in the header. -/
def dedupKey (headers : List String) (row : List String) : String × String :=
  (row.getD (headers.indexOf "PurchaseOrderId") "",
   row.getD (headers.indexOf "SkuId") "")

/-- The observable outcome of the dedup pass: the store contents afterwards,
the number of removed rows, and whether the clear-and-rewrite calls were
issued. -/
structure DedupResult where
  values : List (List String)
  removed : Nat
  rewrote : Bool
deriving DecidableEq

namespace App

/-- The dedup pass of app.py: an empty store returns at once; when both key
columns are named in the header the data rows are deduplicated keeping first
occurrences and the store is cleared and rewritten as header plus survivors;
when either is absent the pass only logs and issues no write at all. -/
def removeDuplicatesFromSheet : List (List String) → DedupResult
  | [] => ⟨[], 0, false⟩
  | headers :: rows =>
    if "PurchaseOrderId" ∈ headers ∧ "SkuId" ∈ headers then
      ⟨headers :: dropDuplicatesBy (dedupKey headers) [] rows,
       rows.length - (dropDuplicatesBy (dedupKey headers) [] rows).length, true⟩
    else ⟨headers :: rows, 0, false⟩

end App

namespace Auto

/-- The dedup pass of flipkartninjutsu_auto.py: identical keying and
deduplication, but the clear and rewrite are issued unconditionally, so a
store whose header lacks a key column is still cleared and rewritten with
its unchanged rows. -/
def removeDuplicatesFromSheet : List (List String) → DedupResult
  | [] => ⟨[], 0, false⟩
  | headers :: rows =>
    if "PurchaseOrderId" ∈ headers ∧ "SkuId" ∈ headers then
      ⟨headers :: dropDuplicatesBy (dedupKey headers) [] rows,
       rows.length - (dropDuplicatesBy (dedupKey headers) [] rows).length, true⟩
    else ⟨headers :: rows, 0, true⟩

end Auto

/-- The first-occurrence filter stated the way the claim states it: the row
at position i survives exactly when no row at an earlier position carries
the same key.  Used to check the accumulator recursion against the words of
the specification. -/
def firstOccurrences {α β : Type} [DecidableEq β] (key : α → β) (rows : List α) :
    List α :=
  (rows.enum.filter (fun p =>
    (rows.take p.1).all (fun q => decide (key q ≠ key p.2)))).map Prod.snd

/-- The cell records of the round-trip example of the specification: A1 and
B1 are shared-string references 0 and 1, A2 is the direct value 1, B2 is
present but empty. -/
def specRecords : List CellRecord :=
  [⟨"A1", "s", "0", ""⟩, ⟨"B1", "s", "1", ""⟩,
   ⟨"A2", "", "1", ""⟩, ⟨"B2", "", "", ""⟩]

/-- The round-trip example container: a valid archive whose shared strings
are Apple and Banana with one worksheet holding specRecords. -/
def specContainer : RawContainer :=
  ⟨true, ["Apple", "Banana"], [specRecords]⟩

/-! ## Helper lemmas -/

theorem removeApostrophes_idem (s : String) :
    removeApostrophes (removeApostrophes s) = removeApostrophes s := by
  unfold removeApostrophes
  refine congrArg String.mk ?_
  exact List.filter_eq_self.mpr (fun a ha => (List.mem_filter.mp ha).2)

theorem map_eq_self_of {α : Type} (f : α → α) :
    ∀ (l : List α), (∀ a ∈ l, f a = a) → l.map f = l
  | [], _ => rfl
  | a :: as, h => by
    simp only [List.map_cons, List.cons.injEq]
    exact ⟨h a (List.mem_cons_self a as),
      map_eq_self_of f as (fun b hb => h b (List.mem_cons_of_mem a hb))⟩

theorem dropDuplicatesBy_sublist {α β : Type} [DecidableEq β] (key : α → β) :
    ∀ (seen : List β) (l : List α), (dropDuplicatesBy key seen l).Sublist l
  | _, [] => List.Sublist.refl _
  | seen, a :: as => by
    unfold dropDuplicatesBy
    split
    case isTrue h => exact (dropDuplicatesBy_sublist key _ as).cons a
    case isFalse h => exact (dropDuplicatesBy_sublist key _ as).cons₂ a

theorem dropDuplicatesBy_spec {α β : Type} [DecidableEq β] (key : α → β) :
    ∀ (seen : List β) (l : List α),
      (∀ a ∈ dropDuplicatesBy key seen l, key a ∉ seen) ∧
        (dropDuplicatesBy key seen l).Pairwise (fun a b => key a ≠ key b)
  | _, [] => ⟨fun a ha => absurd ha (List.not_mem_nil a), List.Pairwise.nil⟩
  | seen, a :: as => by
    unfold dropDuplicatesBy
    split
    case isTrue h =>
      obtain ⟨h1, h2⟩ := dropDuplicatesBy_spec key (key a :: seen) as
      exact ⟨fun b hb => fun hbs => h1 b hb (List.mem_cons_of_mem _ hbs), h2⟩
    case isFalse h =>
      obtain ⟨h1, h2⟩ := dropDuplicatesBy_spec key (key a :: seen) as
      constructor
      · intro b hb
        rcases List.mem_cons.mp hb with hba | hbt
        · exact hba ▸ h
        · exact fun hbs => h1 b hbt (List.mem_cons_of_mem _ hbs)
      · refine List.pairwise_cons.mpr ⟨?_, h2⟩
        intro b hb
        have := h1 b hb
        intro hk
        exact this (hk ▸ List.mem_cons_self _ _)

theorem dropDuplicatesBy_eq_self {α β : Type} [DecidableEq β] (key : α → β) :
    ∀ (seen : List β) (l : List α),
      (∀ a ∈ l, key a ∉ seen) →
      l.Pairwise (fun a b => key a ≠ key b) →
      dropDuplicatesBy key seen l = l
  | _, [], _, _ => rfl
  | seen, a :: as, hseen, hpw => by
    unfold dropDuplicatesBy
    rw [if_neg (hseen a (List.mem_cons_self a as))]
    refine congrArg (List.cons a) ?_
    obtain ⟨hhead, htail⟩ := List.pairwise_cons.mp hpw
    refine dropDuplicatesBy_eq_self key (key a :: seen) as ?_ htail
    intro b hb hmem
    rcases List.mem_cons.mp hmem with hba | hbs
    · exact (hhead b hb) hba.symm
    · exact hseen b (List.mem_cons_of_mem a hb) hbs

theorem dropDuplicatesBy_eq_filter {α β : Type} [DecidableEq β] (key : α → β) :
    ∀ (seen : List β) (l : List α),
      dropDuplicatesBy key seen l =
        (l.enum.filter (fun p => decide (key p.2 ∉ seen) &&
          (l.take p.1).all (fun q => decide (key q ≠ key p.2)))).map Prod.snd
  | _, [] => rfl
  | seen, a :: as => by
    have htail :
        List.filter (fun p => decide (key p.2 ∉ seen) &&
            ((a :: as).take p.1).all (fun q => decide (key q ≠ key p.2)))
          (List.map (Prod.map (fun x => x + 1) id) as.enum)
          = List.map (Prod.map (fun x => x + 1) id)
            (List.filter (fun p => decide (key p.2 ∉ (key a :: seen)) &&
              (as.take p.1).all (fun q => decide (key q ≠ key p.2))) as.enum) := by
      rw [List.filter_map]
      refine congrArg _ ?_
      apply List.filter_congr
      rintro ⟨i, b⟩ _
      by_cases h1 : key b = key a <;> by_cases h2 : key b ∈ seen <;>
        simp [h1, h2, eq_comm]
    unfold dropDuplicatesBy
    split
    case isTrue h =>
      rw [List.enum_cons', List.filter_cons]
      rw [if_neg (by simp [h])]
      rw [htail, List.map_map]
      rw [dropDuplicatesBy_eq_filter key (key a :: seen) as]
      rfl
    case isFalse h =>
      rw [List.enum_cons', List.filter_cons]
      rw [if_pos (by simp [h])]
      rw [List.map_cons]
      refine congrArg (List.cons a) ?_
      rw [htail, List.map_map]
      rw [dropDuplicatesBy_eq_filter key (key a :: seen) as]
      rfl

theorem dropDuplicatesBy_eq_firstOccurrences {α β : Type} [DecidableEq β]
    (key : α → β) (l : List α) :
    dropDuplicatesBy key [] l = firstOccurrences key l := by
  rw [dropDuplicatesBy_eq_filter key [] l]
  unfold firstOccurrences
  refine congrArg (List.map Prod.snd) ?_
  apply List.filter_congr
  intro p _
  simp

theorem applyHeaderPolicy_natCast (N : Nat) (data : List (List String)) :
    applyHeaderPolicy (N : Int) data =
      if data.length < N + 2 then Table.empty
      else ⟨headerFromRow (data.getD N []), data.drop (N + 1)⟩ := by
  unfold applyHeaderPolicy
  rw [max_eq_right (by omega : (1 : Int) ≤ (N : Int) + 2)]
  by_cases h : data.length < N + 2
  · rw [if_pos (by exact_mod_cast h), if_pos h]
  · rw [if_neg (by exact_mod_cast h), if_neg h,
      if_neg (by omega : ¬ (N : Int) = -1)]
    have hN : (N : Int).toNat = N := Int.toNat_natCast N
    rw [hN]
    rw [if_pos (by omega : data.length > N)]

theorem applyHeaderPolicy_negOne (data : List (List String)) :
    applyHeaderPolicy (-1) data =
      if data.length < 1 then Table.empty
      else ⟨synthHeaders (data.headD []).length, data⟩ := by
  unfold applyHeaderPolicy
  rw [(by norm_num : max 1 ((-1 : Int) + 2) = 1)]
  by_cases h : data.length < 1
  · rw [if_pos (by exact_mod_cast h), if_pos h]
  · rw [if_neg (by exact_mod_cast h), if_neg h, if_pos rfl]

theorem mem_rows_applyHeaderPolicy {r : List String} {hr : Int}
    {data : List (List String)} :
    r ∈ (applyHeaderPolicy hr data).rows → r ∈ data := by
  unfold applyHeaderPolicy
  split
  · intro h
    exact absurd h (List.not_mem_nil r)
  · split
    · intro h
      exact h
    · split
      · intro h
        exact List.mem_of_mem_drop h
      · intro h
        exact absurd h (List.not_mem_nil r)

theorem length_of_mem_buildGrid {shared : List (String × String)}
    {records : List CellRecord} {r : List String}
    (h : r ∈ buildGrid shared records) : r.length = maxColOf records := by
  unfold buildGrid at h
  obtain ⟨ri, _, hr⟩ := List.mem_map.mp h
  simp [← hr]

theorem exists_nonblank_of_rowNonBlank {r : List String}
    (h : rowNonBlank r = true) : ∃ c ∈ r, c ≠ "" := by
  unfold rowNonBlank at h
  obtain ⟨c, hc, hdec⟩ := List.any_eq_true.mp h
  exact ⟨c, hc, of_decide_eq_true hdec⟩

theorem tryRawXmlExtraction_badArchive {c : RawContainer} {hr : Int}
    (h : c.validArchive = false) : tryRawXmlExtraction c hr = Table.empty := by
  unfold tryRawXmlExtraction tryRawXmlExtractionE
  rw [if_pos h]

theorem tryRawXmlExtraction_noWorksheet {c : RawContainer} {hr : Int}
    (h : c.worksheets = []) : tryRawXmlExtraction c hr = Table.empty := by
  unfold tryRawXmlExtraction tryRawXmlExtractionE
  rw [h]
  by_cases hv : c.validArchive = false
  · rw [if_pos hv]
  · rw [if_neg hv]

theorem tryRawXmlExtraction_noCells {c : RawContainer}
    {rest : List (List CellRecord)} (hw : c.worksheets = [] :: rest) (hr : Int) :
    tryRawXmlExtraction c hr = Table.empty := by
  unfold tryRawXmlExtraction tryRawXmlExtractionE
  rw [hw]
  by_cases hv : c.validArchive = false
  · rw [if_pos hv]
  · rw [if_neg hv]
    simp

theorem tryRawXmlExtraction_valid {c : RawContainer} {records : List CellRecord}
    {rest : List (List CellRecord)} (hv : c.validArchive = true)
    (hw : c.worksheets = records :: rest) (hrec : records ≠ []) (hr : Int) :
    tryRawXmlExtraction c hr =
      applyHeaderPolicy hr (filteredGrid (sharedMap c.sharedStringRuns) records) := by
  unfold tryRawXmlExtraction tryRawXmlExtractionE
  rw [hw, if_neg (by simp [hv])]
  simp only [if_neg hrec]
  rw [if_neg (by unfold cellEntries; simp [hrec])]

theorem stripRow_idem (r : List String) :
    (r.map removeApostrophes).map removeApostrophes = r.map removeApostrophes := by
  apply map_eq_self_of
  intro a ha
  obtain ⟨b, _, hb⟩ := List.mem_map.mp ha
  exact hb ▸ removeApostrophes_idem b

theorem mem_of_mem_filterSecondCol {n : Nat} {l : List (List String)}
    {r : List String} (h : r ∈ filterSecondCol n l) : r ∈ l := by
  unfold filterSecondCol at h
  split at h
  · exact (List.mem_filter.mp h).1
  · exact h

theorem mem_of_mem_dropDuplicateRows {l : List (List String)} {r : List String}
    (h : r ∈ dropDuplicateRows l) : r ∈ l :=
  (dropDuplicatesBy_sublist (fun r => r) [] l).subset h

theorem cleanDataframe_of_empty {t : Table} (h : t.rows.isEmpty = true) :
    cleanDataframe t = t := by
  unfold cleanDataframe
  rw [if_pos h]

theorem cleanDataframe_of_nonempty {t : Table} (h : t.rows.isEmpty = false) :
    cleanDataframe t =
      ⟨t.header,
       dropDuplicateRows (filterSecondCol t.header.length (stripApostrophesRows t.rows))⟩ := by
  unfold cleanDataframe
  rw [if_neg (by simp [h])]

theorem stripApostrophesRows_of_stripped {l0 l : List (List String)}
    (hsub : ∀ r ∈ l, r ∈ stripApostrophesRows l0) :
    stripApostrophesRows l = l := by
  apply map_eq_self_of
  intro r hr
  obtain ⟨r0, _, hr0⟩ := List.mem_map.mp (hsub r hr)
  rw [← hr0]
  exact stripRow_idem r0

/-! ## Claim theorems -/

/-- C6: the table post-processor is idempotent: applying clean_dataframe to
its own output changes nothing, for every table. -/
theorem c6_post_processor_idempotent (t : Table) :
    cleanDataframe (cleanDataframe t) = cleanDataframe t := by
  by_cases h0 : t.rows.isEmpty
  · have hct := cleanDataframe_of_empty h0
    rw [hct, hct]
  · have h0f : t.rows.isEmpty = false := by simpa using h0
    have hct := cleanDataframe_of_nonempty h0f
    set rows1 := dropDuplicateRows
      (filterSecondCol t.header.length (stripApostrophesRows t.rows)) with hrows1
    rw [hct]
    by_cases h1 : (rows1 : List (List String)).isEmpty
    · exact cleanDataframe_of_empty (t := ⟨t.header, rows1⟩) h1
    · have h1f : (rows1 : List (List String)).isEmpty = false := by simpa using h1
      rw [cleanDataframe_of_nonempty (t := ⟨t.header, rows1⟩) h1f]
      have hsub : ∀ r ∈ rows1, r ∈ stripApostrophesRows t.rows := by
        intro r hr
        exact mem_of_mem_filterSecondCol (mem_of_mem_dropDuplicateRows hr)
      have hstrip : stripApostrophesRows rows1 = rows1 :=
        stripApostrophesRows_of_stripped hsub
      have hfilter : filterSecondCol t.header.length rows1 = rows1 := by
        unfold filterSecondCol
        split
        case isTrue h2 =>
          apply List.filter_eq_self.mpr
          intro r hr
          have hrf : r ∈ filterSecondCol t.header.length (stripApostrophesRows t.rows) :=
            mem_of_mem_dropDuplicateRows hr
          unfold filterSecondCol at hrf
          rw [if_pos h2] at hrf
          exact (List.mem_filter.mp hrf).2
        case isFalse h2 => rfl
      have hdedup : dropDuplicateRows rows1 = rows1 := by
        unfold dropDuplicateRows
        apply dropDuplicatesBy_eq_self
        · intro a _ ha
          exact absurd ha (List.not_mem_nil _)
        · exact (dropDuplicatesBy_spec (fun r => r) [] _).2
      simp only [hstrip, hfilter, hdedup]

/-- C7: after the post-processor, a table with at least two columns has no
row whose second cell strips to the empty string or to the missing-value
text; the second-column step retains every row passing that test and only
such rows; with fewer than two columns the step removes nothing. -/
theorem c7_second_column_filter (t : Table) :
    (2 ≤ t.header.length →
      (∀ r ∈ (cleanDataframe t).rows, secondColBlank r = false) ∧
      (∀ r ∈ stripApostrophesRows t.rows, secondColBlank r = false →
        r ∈ filterSecondCol t.header.length (stripApostrophesRows t.rows)) ∧
      (∀ r ∈ filterSecondCol t.header.length (stripApostrophesRows t.rows),
        secondColBlank r = false)) ∧
    (t.header.length < 2 →
      filterSecondCol t.header.length (stripApostrophesRows t.rows) =
        stripApostrophesRows t.rows) := by
  constructor
  · intro h2
    refine ⟨?_, ?_, ?_⟩
    · intro r hr
      by_cases h0 : t.rows.isEmpty
      · rw [cleanDataframe_of_empty h0] at hr
        rw [List.isEmpty_iff.mp h0] at hr
        exact absurd hr (List.not_mem_nil r)
      · rw [cleanDataframe_of_nonempty (by simpa using h0)] at hr
        have hrf : r ∈ filterSecondCol t.header.length (stripApostrophesRows t.rows) :=
          mem_of_mem_dropDuplicateRows hr
        unfold filterSecondCol at hrf
        rw [if_pos h2] at hrf
        have := (List.mem_filter.mp hrf).2
        simpa using this
    · intro r hr hblank
      unfold filterSecondCol
      rw [if_pos h2]
      exact List.mem_filter.mpr ⟨hr, by simp [hblank]⟩
    · intro r hr
      unfold filterSecondCol at hr
      rw [if_pos h2] at hr
      have := (List.mem_filter.mp hr).2
      simpa using this
  · intro h2
    unfold filterSecondCol
    rw [if_neg (by omega)]

/-- Witness for C7 at a concrete two-column table. -/
theorem c7_second_column_filter_witness :
    ["y", "k"] ∈ filterSecondCol 2 (stripApostrophesRows [["x", ""], ["y", "k"]]) :=
  ((c7_second_column_filter ⟨["a", "b"], [["x", ""], ["y", "k"]]⟩).1 (by decide)).2.1
    ["y", "k"] (by decide) (by decide)

/-- C3: when the store header names both key columns, the dedup pass
rewrites the store as the header followed by exactly the rows whose key
pair did not occur in any earlier row, in stored order, and both source
variants agree on this. -/
theorem c3_global_dedup_first_occurrence (headers : List String)
    (rows : List (List String))
    (hpo : "PurchaseOrderId" ∈ headers) (hsku : "SkuId" ∈ headers) :
    App.removeDuplicatesFromSheet (headers :: rows) =
      ⟨headers :: firstOccurrences (dedupKey headers) rows,
       rows.length - (firstOccurrences (dedupKey headers) rows).length, true⟩ ∧
    Auto.removeDuplicatesFromSheet (headers :: rows) =
      App.removeDuplicatesFromSheet (headers :: rows) ∧
    (firstOccurrences (dedupKey headers) rows).Sublist rows := by
  have hdd := dropDuplicatesBy_eq_firstOccurrences (dedupKey headers) rows
  refine ⟨?_, ?_, ?_⟩
  · simp only [App.removeDuplicatesFromSheet]
    rw [if_pos ⟨hpo, hsku⟩, hdd]
  · simp only [App.removeDuplicatesFromSheet, Auto.removeDuplicatesFromSheet]
    rw [if_pos ⟨hpo, hsku⟩, if_pos ⟨hpo, hsku⟩]
  · rw [← hdd]
    exact dropDuplicatesBy_sublist (dedupKey headers) [] rows

/-- Witness for C3: a store with one repeated key pair keeps only the first
occurrence. -/
theorem c3_global_dedup_first_occurrence_witness :
    App.removeDuplicatesFromSheet
        [["PurchaseOrderId", "SkuId"], ["PO1", "S1"], ["PO2", "S1"], ["PO1", "S1"]] =
      ⟨[["PurchaseOrderId", "SkuId"], ["PO1", "S1"], ["PO2", "S1"]], 1, true⟩ := by
  have h := c3_global_dedup_first_occurrence ["PurchaseOrderId", "SkuId"]
    [["PO1", "S1"], ["PO2", "S1"], ["PO1", "S1"]] (by simp) (by simp)
  rw [h.1]
  decide

/-- Counterexample for C4 as stated: a nonempty store whose header lacks
both key columns is still cleared and rewritten by the auto-script variant,
although the claim says no clear and no rewrite is performed. -/
theorem c4_dedup_skip_counterexample :
    ¬ ("PurchaseOrderId" ∈ (["A", "B"] : List String) ∧
        "SkuId" ∈ (["A", "B"] : List String)) ∧
    [["A", "B"], ["1", "2"]] ≠ ([] : List (List String)) ∧
    (Auto.removeDuplicatesFromSheet [["A", "B"], ["1", "2"]]).rewrote = true := by
  refine ⟨by simp, by simp, rfl⟩

/-- C4 amended: with a key column missing, both variants report zero
removals and leave the store values unchanged; the app variant issues no
write, while the auto-script variant still clears and rewrites the store
with its unchanged contents. -/
theorem c4_dedup_skip_amended (headers : List String) (rows : List (List String))
    (h : ¬ ("PurchaseOrderId" ∈ headers ∧ "SkuId" ∈ headers)) :
    App.removeDuplicatesFromSheet (headers :: rows) = ⟨headers :: rows, 0, false⟩ ∧
    Auto.removeDuplicatesFromSheet (headers :: rows) = ⟨headers :: rows, 0, true⟩ := by
  constructor
  · simp only [App.removeDuplicatesFromSheet]
    rw [if_neg h]
  · simp only [Auto.removeDuplicatesFromSheet]
    rw [if_neg h]

/-- Witness for the amended C4 at a concrete store. -/
theorem c4_dedup_skip_amended_witness :
    App.removeDuplicatesFromSheet [["A", "B"], ["1", "2"]] =
      ⟨[["A", "B"], ["1", "2"]], 0, false⟩ ∧
    Auto.removeDuplicatesFromSheet [["A", "B"], ["1", "2"]] =
      ⟨[["A", "B"], ["1", "2"]], 0, true⟩ :=
  c4_dedup_skip_amended ["A", "B"] [["1", "2"]] (by simp)

theorem runCascadeInstr_cons_fst (t : Table) (ts : List Table) :
    (runCascadeInstr (t :: ts)).1 =
      if t.rows.isEmpty then (runCascadeInstr ts).1 else cleanDataframe t := by
  simp only [runCascadeInstr]
  split <;> rfl

theorem ite_eq_false_comm {α : Type} (b : Bool) (x y : α) :
    (if b = false then x else y) = if b then y else x := by
  cases b <;> simp

theorem readExcelFile_eq_runCascade (e : ExcelEnv) :
    readExcelFile e = (runCascadeInstr (strategyResults e)).1 := by
  unfold readExcelFile strategyResults
  rw [runCascadeInstr_cons_fst, runCascadeInstr_cons_fst, runCascadeInstr_cons_fst,
    runCascadeInstr_cons_fst, runCascadeInstr_cons_fst, runCascadeInstr_cons_fst,
    runCascadeInstr_cons_fst, runCascadeInstr_cons_fst]
  simp only [ite_eq_false_comm]
  rfl

theorem runCascadeInstr_first_nonempty :
    ∀ (ts : List Table) (i : Nat) (hi : i < ts.length),
      (ts.get ⟨i, hi⟩).rows ≠ [] →
      (∀ j (hj : j < ts.length), j < i → (ts.get ⟨j, hj⟩).rows = []) →
      runCascadeInstr ts = (cleanDataframe (ts.get ⟨i, hi⟩), i + 1)
  | [], i, hi, _, _ => absurd hi (by simp)
  | t :: ts, 0, hi, hne, _ => by
    simp only [runCascadeInstr]
    rw [if_neg (by simpa [List.isEmpty_iff] using hne)]
    rfl
  | t :: ts, i + 1, hi, hne, hbefore => by
    have h0 : t.rows = [] := hbefore 0 (by omega) (by omega)
    simp only [runCascadeInstr]
    rw [if_pos (by simp [h0])]
    have hrec := runCascadeInstr_first_nonempty ts i (by simpa using hi)
      (by simpa using hne)
      (fun j hj hji => by
        have := hbefore (j + 1) (by simpa using hj) (by omega)
        simpa using this)
    rw [hrec]
    rfl

/-- C2: the cascade examines strategies in order; the first strategy with a
nonempty raw table determines the result, which is that table fed to the
post-processor, and exactly the strategies up to and including it are
invoked; read_excel_file is that dispatcher over its fixed strategy
ordering. -/
theorem c2_cascade_short_circuit :
    (∀ (ts : List Table) (i : Nat) (hi : i < ts.length),
      (ts.get ⟨i, hi⟩).rows ≠ [] →
      (∀ j (hj : j < ts.length), j < i → (ts.get ⟨j, hj⟩).rows = []) →
      runCascadeInstr ts = (cleanDataframe (ts.get ⟨i, hi⟩), i + 1)) ∧
    (∀ e : ExcelEnv, readExcelFile e = (runCascadeInstr (strategyResults e)).1) :=
  ⟨runCascadeInstr_first_nonempty, readExcelFile_eq_runCascade⟩

/-- Witness for C2: in a three-strategy cascade whose second strategy is the
first nonempty one, exactly two strategies run. -/
theorem c2_cascade_short_circuit_witness :
    runCascadeInstr [Table.empty, ⟨["h"], [["r", "x"]]⟩, ⟨["x"], [["y", "z"]]⟩] =
      (cleanDataframe ⟨["h"], [["r", "x"]]⟩, 2) :=
  c2_cascade_short_circuit.1 [Table.empty, ⟨["h"], [["r", "x"]]⟩, ⟨["x"], [["y", "z"]]⟩]
    1 (by decide) (by decide)
    (fun j hj hji => by
      have hj0 : j = 0 := by omega
      subst hj0
      rfl)

/-- C9: internal failures of the raw decoder (bad archive, no worksheet
part, no cell matches) all surface as the empty sentinel, the bad-archive
exception being caught by the wrapper; and when every strategy yields the
empty table the whole reader returns the empty sentinel. -/
theorem c9_failures_yield_empty :
    (∀ (c : RawContainer) (hr : Int), c.validArchive = false →
      tryRawXmlExtractionE c hr = Except.error "BadZipFile" ∧
      tryRawXmlExtraction c hr = Table.empty) ∧
    (∀ (c : RawContainer) (hr : Int), c.worksheets = [] →
      tryRawXmlExtraction c hr = Table.empty) ∧
    (∀ (c : RawContainer) (rest : List (List CellRecord)) (hr : Int),
      c.worksheets = [] :: rest → tryRawXmlExtraction c hr = Table.empty) ∧
    (∀ e : ExcelEnv, (∀ t ∈ strategyResults e, t.rows = []) →
      readExcelFile e = Table.empty) := by
  refine ⟨?_, ?_, ?_, ?_⟩
  · intro c hr h
    refine ⟨?_, tryRawXmlExtraction_badArchive h⟩
    unfold tryRawXmlExtractionE
    rw [if_pos h]
  · intro c hr h
    exact tryRawXmlExtraction_noWorksheet h
  · intro c rest hr h
    exact tryRawXmlExtraction_noCells h hr
  · intro e hall
    have h1 := hall e.openpyxlResult (by simp [strategyResults])
    have h2 := hall (if e.isXlsFile then e.xlrdResult else Table.empty)
      (by simp [strategyResults])
    have h3 := hall e.calamineResult (by simp [strategyResults])
    have h4 := hall (if e.pyxlsbAvailable then e.pyxlsbResult else Table.empty)
      (by simp [strategyResults])
    have h5 := hall e.xlwingsResult (by simp [strategyResults])
    have h6 := hall e.rawXmlResult (by simp [strategyResults])
    have h7 := hall e.libreofficeResult (by simp [strategyResults])
    have h8 := hall e.ssconvertResult (by simp [strategyResults])
    simp [readExcelFile, h1, h2, h3, h4, h5, h6, h7, h8]

/-- Witness for C9: a stream that is not an archive decodes to empty, and an
environment where every strategy fails reads as empty. -/
theorem c9_failures_yield_empty_witness :
    tryRawXmlExtraction ⟨false, [], []⟩ 0 = Table.empty ∧
    readExcelFile ⟨Table.empty, Table.empty, Table.empty, Table.empty, Table.empty,
      Table.empty, Table.empty, Table.empty, false, false⟩ = Table.empty :=
  ⟨(c9_failures_yield_empty.1 ⟨false, [], []⟩ 0 rfl).2,
   c9_failures_yield_empty.2.2.2 _ (fun t ht => by
     simp [strategyResults] at ht
     simp [ht]
     rfl)⟩

theorem appendToSheet_eq (store : List (List String)) (t : Table) (ah : Bool)
    (ht : t.rows ≠ []) :
    appendToSheet store t ah =
      (store ++ (if ah then t.header :: t.rows else t.rows),
       some ⟨t, ah, store.length, store.length + 1,
             if ah then t.header :: t.rows else t.rows⟩) := by
  simp only [appendToSheet]
  have hvals : (if ah then t.header :: t.rows else t.rows).isEmpty = false := by
    cases ah <;> simp [ht]
  rw [if_neg (by simp [hvals])]
  by_cases hs : store.isEmpty
  · have h0 : store = [] := List.isEmpty_iff.mp hs
    subst h0
    rfl
  · rw [if_neg hs]

theorem processTables_all_false :
    ∀ (ts : List Table) (store : List (List String)),
      ∀ r ∈ (processTables ts false true store).1, r.appendHeaders = false
  | [], store => by simp [processTables]
  | t :: ts, store => by
    by_cases h : t.rows.isEmpty
    · simp only [processTables, if_pos h]
      exact processTables_all_false ts store
    · have hte : t.rows ≠ [] := by simpa [List.isEmpty_iff] using h
      simp only [processTables, if_neg h]
      rw [appendToSheet_eq store t (false && !true) hte]
      intro r hr
      simp only [Option.toList_some, List.singleton_append] at hr
      rcases List.mem_cons.mp hr with hre | hrt
      · rw [hre]
        rfl
      · exact processTables_all_false ts _ r hrt

/-- C5: every executed write anchors at the row after the length the store
had just before that write; the length before each write equals the length
after the previous write of the same run, starting from the store as found;
writes that do not carry the header transmit exactly the data rows; and at
most the first executed write of a run carries the header. -/
theorem c5_append_protocol (ts : List Table) (isFirst hasHeaders : Bool)
    (store : List (List String)) :
    (∀ r ∈ (processTables ts isFirst hasHeaders store).1,
      r.startRow = r.lenBefore + 1 ∧
      (r.appendHeaders = false → r.written = r.table.rows)) ∧
    List.Chain' (fun a b => b.lenBefore = a.lenBefore + a.written.length)
      (processTables ts isFirst hasHeaders store).1 ∧
    (∀ r : WriteRec, (processTables ts isFirst hasHeaders store).1.head? = some r →
      r.lenBefore = store.length) ∧
    (∀ (i : Nat) (r : WriteRec),
      (processTables ts isFirst hasHeaders store).1.get? (i + 1) = some r →
      r.appendHeaders = false) := by
  induction ts generalizing isFirst hasHeaders store with
  | nil =>
    refine ⟨?_, ?_, ?_, ?_⟩ <;> simp [processTables]
  | cons t ts ih =>
    by_cases h : t.rows.isEmpty
    · simp only [processTables, if_pos h]
      exact ih isFirst hasHeaders store
    · have hte : t.rows ≠ [] := by simpa [List.isEmpty_iff] using h
      simp only [processTables, if_neg h]
      rw [appendToSheet_eq store t (isFirst && !hasHeaders) hte]
      simp only [Option.toList_some, List.singleton_append]
      obtain ⟨ih1, ih2, ih3, ih4⟩ :=
        ih false true (store ++ (if (isFirst && !hasHeaders) then t.header :: t.rows else t.rows))
      refine ⟨?_, ?_, ?_, ?_⟩
      · intro r hr
        rcases List.mem_cons.mp hr with hre | hrt
        · subst hre
          refine ⟨rfl, ?_⟩
          intro hah
          simp only at hah
          simp [hah]
        · exact ih1 r hrt
      · refine List.chain'_cons'.mpr ⟨?_, ih2⟩
        intro b hb
        have := ih3 b hb
        rw [this]
        simp [List.length_append]
      · intro r hr
        have := Option.some.inj hr
        rw [← this]
      · intro i r hr
        simp only [List.get?_cons_succ] at hr
        have hmem : r ∈ (processTables ts false true
            (store ++ (if (isFirst && !hasHeaders) then t.header :: t.rows else t.rows))).1 :=
          List.get?_mem hr
        exact processTables_all_false ts _ r hmem

/-- Witness for C5: a run of three parse results (the middle one empty)
executes two writes; the second write carries no header, writes exactly the
data rows, and anchors at row three of the store the first write grew to
two rows. -/
theorem c5_append_protocol_witness :
    (processTables [⟨["h"], [["1", "a"]]⟩, Table.empty, ⟨["h"], [["2", "b"]]⟩]
        true false []).1.get? 1 =
      some ⟨⟨["h"], [["2", "b"]]⟩, false, 2, 3, [["2", "b"]]⟩ ∧
    (⟨⟨["h"], [["2", "b"]]⟩, false, 2, 3, [["2", "b"]]⟩ : WriteRec).appendHeaders
      = false ∧
    (⟨⟨["h"], [["2", "b"]]⟩, false, 2, 3, [["2", "b"]]⟩ : WriteRec).written =
      (⟨⟨["h"], [["2", "b"]]⟩, false, 2, 3, [["2", "b"]]⟩ : WriteRec).table.rows := by
  refine ⟨by decide, ?_, ?_⟩
  · exact (c5_append_protocol [⟨["h"], [["1", "a"]]⟩, Table.empty, ⟨["h"], [["2", "b"]]⟩]
      true false []).2.2.2 0 _ (by decide)
  · exact ((c5_append_protocol [⟨["h"], [["1", "a"]]⟩, Table.empty, ⟨["h"], [["2", "b"]]⟩]
      true false []).1 _ (by decide)).2 rfl

theorem headerFromRow_length (row : List String) :
    (headerFromRow row).length = row.length := by
  unfold headerFromRow
  rw [List.length_map, List.enum_length]

theorem headD_mem_of_ne_nil {α : Type} {l : List α} {d : α} (h : l ≠ []) :
    l.headD d ∈ l := by
  cases l with
  | nil => exact absurd rfl h
  | cons a t => exact List.mem_cons_self a t

theorem bool_true_of_not_false {b : Bool} (h : ¬ b = false) : b = true := by
  revert h
  cases b <;> simp

/-- C8: every row of the decoder output, and every row of the blank-filtered
grid, holds at least one nonempty cell, so a fully blank row can never
appear. -/
theorem c8_blank_rows_eliminated :
    (∀ (c : RawContainer) (hr : Int),
      ∀ r ∈ (tryRawXmlExtraction c hr).rows, ∃ cell ∈ r, cell ≠ "") ∧
    (∀ (shared : List (String × String)) (records : List CellRecord),
      ∀ r ∈ filteredGrid shared records, ∃ cell ∈ r, cell ≠ "") := by
  have hpart2 : ∀ (shared : List (String × String)) (records : List CellRecord),
      ∀ r ∈ filteredGrid shared records, ∃ cell ∈ r, cell ≠ "" := by
    intro shared records r hrm
    exact exists_nonblank_of_rowNonBlank (List.mem_filter.mp hrm).2
  refine ⟨?_, hpart2⟩
  intro c hr r hrm
  by_cases hv : c.validArchive = false
  · rw [tryRawXmlExtraction_badArchive hv] at hrm
    exact absurd hrm (List.not_mem_nil r)
  · have hv2 : c.validArchive = true := bool_true_of_not_false hv
    rcases hws : c.worksheets with _ | ⟨records, rest⟩
    · rw [tryRawXmlExtraction_noWorksheet hws] at hrm
      exact absurd hrm (List.not_mem_nil r)
    · by_cases hrec : records = []
      · subst hrec
        rw [tryRawXmlExtraction_noCells hws] at hrm
        exact absurd hrm (List.not_mem_nil r)
      · rw [tryRawXmlExtraction_valid hv2 hws hrec] at hrm
        exact hpart2 _ _ r (mem_rows_applyHeaderPolicy hrm)

/-- Witness for C8 at the round-trip container. -/
theorem c8_blank_rows_eliminated_witness :
    ∃ cell ∈ ["Apple", "Banana"], cell ≠ "" :=
  c8_blank_rows_eliminated.1 specContainer (-1) ["Apple", "Banana"] (by decide)

/-- C10: with a valid archive and a chosen worksheet, an explicit header row
N yields a nonempty table exactly when the blank-filtered grid has at least
N + 2 rows, and the no-header policy exactly when it has at least one
row. -/
theorem c10_row_count_threshold (c : RawContainer) (records : List CellRecord)
    (rest : List (List CellRecord)) (hv : c.validArchive = true)
    (hw : c.worksheets = records :: rest) :
    (∀ N : Nat, ((tryRawXmlExtraction c (N : Int)).rows ≠ [] ↔
      N + 2 ≤ (filteredGrid (sharedMap c.sharedStringRuns) records).length)) ∧
    ((tryRawXmlExtraction c (-1)).rows ≠ [] ↔
      1 ≤ (filteredGrid (sharedMap c.sharedStringRuns) records).length) := by
  by_cases hrec : records = []
  · subst hrec
    have hg : filteredGrid (sharedMap c.sharedStringRuns) [] = [] := rfl
    rw [hg]
    constructor
    · intro N
      rw [tryRawXmlExtraction_noCells hw]
      simp [Table.empty]
    · rw [tryRawXmlExtraction_noCells hw]
      simp [Table.empty]
  · constructor
    · intro N
      rw [tryRawXmlExtraction_valid hv hw hrec, applyHeaderPolicy_natCast]
      by_cases hlen :
          (filteredGrid (sharedMap c.sharedStringRuns) records).length < N + 2
      · rw [if_pos hlen]
        simp [Table.empty]
        omega
      · rw [if_neg hlen]
        show (filteredGrid (sharedMap c.sharedStringRuns) records).drop (N + 1) ≠ [] ↔ _
        rw [Ne, List.drop_eq_nil_iff]
        omega
    · rw [tryRawXmlExtraction_valid hv hw hrec, applyHeaderPolicy_negOne]
      by_cases hlen :
          (filteredGrid (sharedMap c.sharedStringRuns) records).length < 1
      · rw [if_pos hlen]
        constructor
        · intro hne
          exact absurd rfl hne
        · intro hle
          exact absurd hle (by omega)
      · rw [if_neg hlen]
        show filteredGrid (sharedMap c.sharedStringRuns) records ≠ [] ↔ _
        rw [← List.length_pos]
        omega

/-- Witness for C10: the round-trip grid has two rows, so header row 0
yields a nonempty table. -/
theorem c10_row_count_threshold_witness :
    (tryRawXmlExtraction specContainer ((0 : Nat) : Int)).rows ≠ [] :=
  ((c10_row_count_threshold specContainer specRecords [] rfl rfl).1 0).mpr (by decide)

/-- C1: for a valid archive, whenever an explicit header row N yields a
nonempty table, the header is row N of the blank-filtered grid with blank
cells replaced by synthetic names, the data rows are exactly the grid rows
after row N in order, and the column count is the maximum observed column
index; with no header row, the header is the synthetic names up to the
maximum observed column index and every grid row is a data row. -/
theorem c1_decoder_header_policy (c : RawContainer) (records : List CellRecord)
    (rest : List (List CellRecord)) (hv : c.validArchive = true)
    (hw : c.worksheets = records :: rest) :
    (∀ N : Nat, (tryRawXmlExtraction c (N : Int)).rows ≠ [] →
      tryRawXmlExtraction c (N : Int) =
        ⟨headerFromRow ((filteredGrid (sharedMap c.sharedStringRuns) records).getD N []),
         (filteredGrid (sharedMap c.sharedStringRuns) records).drop (N + 1)⟩ ∧
      (tryRawXmlExtraction c (N : Int)).header.length = maxColOf records ∧
      (∀ r ∈ (tryRawXmlExtraction c (N : Int)).rows, r.length = maxColOf records)) ∧
    ((tryRawXmlExtraction c (-1)).rows ≠ [] →
      tryRawXmlExtraction c (-1) =
        ⟨synthHeaders (maxColOf records),
         filteredGrid (sharedMap c.sharedStringRuns) records⟩ ∧
      (∀ r ∈ (tryRawXmlExtraction c (-1)).rows, r.length = maxColOf records)) := by
  by_cases hrec : records = []
  · subst hrec
    constructor
    · intro N hne
      rw [tryRawXmlExtraction_noCells hw] at hne
      exact absurd rfl hne
    · intro hne
      rw [tryRawXmlExtraction_noCells hw] at hne
      exact absurd rfl hne
  · have hval := tryRawXmlExtraction_valid hv hw hrec
    constructor
    · intro N hne
      rw [hval (N : Int), applyHeaderPolicy_natCast] at hne ⊢
      by_cases hlen :
          (filteredGrid (sharedMap c.sharedStringRuns) records).length < N + 2
      · rw [if_pos hlen] at hne
        exact absurd rfl hne
      · rw [if_neg hlen] at hne ⊢
        refine ⟨rfl, ?_, ?_⟩
        · show (headerFromRow
              ((filteredGrid (sharedMap c.sharedStringRuns) records).getD N [])).length =
            maxColOf records
          rw [headerFromRow_length]
          have hNlt : N < (filteredGrid (sharedMap c.sharedStringRuns) records).length := by
            omega
          have hmem : (filteredGrid (sharedMap c.sharedStringRuns) records).getD N [] ∈
              filteredGrid (sharedMap c.sharedStringRuns) records := by
            rw [List.getD_eq_getElem _ [] hNlt]
            exact List.getElem_mem hNlt
          exact length_of_mem_buildGrid (List.mem_filter.mp hmem).1
        · intro r hrm
          have : r ∈ filteredGrid (sharedMap c.sharedStringRuns) records :=
            List.mem_of_mem_drop hrm
          exact length_of_mem_buildGrid (List.mem_filter.mp this).1
    · intro hne
      rw [hval (-1), applyHeaderPolicy_negOne] at hne ⊢
      by_cases hlen :
          (filteredGrid (sharedMap c.sharedStringRuns) records).length < 1
      · rw [if_pos hlen] at hne
        exact absurd rfl hne
      · rw [if_neg hlen] at hne ⊢
        have hgne : filteredGrid (sharedMap c.sharedStringRuns) records ≠ [] := by
          intro hnil
          rw [hnil] at hlen
          exact hlen (by simp)
        refine ⟨?_, ?_⟩
        · have hhead :
              ((filteredGrid (sharedMap c.sharedStringRuns) records).headD []).length =
                maxColOf records :=
            length_of_mem_buildGrid
              (List.mem_filter.mp (headD_mem_of_ne_nil hgne)).1
          rw [hhead]
        · intro r hrm
          exact length_of_mem_buildGrid (List.mem_filter.mp hrm).1

/-- Witness for C1: the round-trip container with header row 0 decodes to
header Apple, Banana and one data row, with two columns. -/
theorem c1_decoder_header_policy_witness :
    tryRawXmlExtraction specContainer ((0 : Nat) : Int) =
      ⟨["Apple", "Banana"], [["1", ""]]⟩ ∧
    (tryRawXmlExtraction specContainer ((0 : Nat) : Int)).header.length = 2 := by
  have h := (c1_decoder_header_policy specContainer specRecords [] rfl rfl).1 0
    (by decide)
  constructor
  · rw [h.1]
    decide
  · rw [h.2.1]
    decide

end FlipkartGRN
